import Mathlib

/-!
Shallow embedding of the `log-bin` event broadcast hub.

Source files embedded:
- `src/channel_manager.rs`: `Channel` (history, subscriber registry, rate
  limiting) and `ChannelManager` (name-indexed registry with garbage
  collection).
- `src/main.rs`: the `get_bucket` and `post_events` request handlers.
- `src/parsers/mod.rs`: `ParsedEvent::parse` and the legacy
  semicolon-separated key=value fallback format.

Modelling conventions:
- Rust `u64` atomics are `Nat` with arithmetic reduced `% 2 ^ 64` where the
  source wraps (`fetch_add`); `u64`-typed inputs carry `< 2 ^ 64` bounds in
  theorem hypotheses.
- `SystemTime::now()` (seconds since the epoch) and the uuid of a new
  subscriber are explicit arguments.
- `tokio::sync::broadcast` fan-out is modelled by a `sent` trace on the
  channel plus a receiver count; serialisation of a payload to its JSON
  string is modelled by keeping the structured payload itself.
- Rust `&str` operations are modelled structurally over `String.data`
  (`String.splitOn` etc. do not reduce in the kernel); `str::len` is the
  UTF-8 byte length, `trim` is modelled for ASCII whitespace.
- `serde_json` and the `sfv` crate are external collaborators: the results
  of the JSON parser and of the RFC 8941 attempts are parameters, while the
  repository's own legacy fallback is embedded in full, with the fallible
  byte slice `value[1..value.len() - 1]` returning `Except`.
- `MAX_LOG_LINES_PER_MINUTE` is declared at the crate root, which is not
  part of the sources; every statement is parametric in that `limit`.
-/

/-! ## Rust string primitives on `List Char` -/

/-- Rust `str::split(char)`: `"" splits to [""]`, separators at the ends
produce empty pieces. -/
def splitChar (sep : Char) : List Char → List (List Char)
  | [] => [[]]
  | c :: rest =>
    match splitChar sep rest with
    | [] => [[]]
    | w :: ws => if c = sep then [] :: w :: ws else (c :: w) :: ws

/-- Worker for `splitSub`, structural in a fuel bound. -/
def splitSubGo (sep : List Char) : Nat → List Char → List Char → List (List Char)
  | _, acc, [] => [acc.reverse]
  | 0, acc, s => [acc.reverse ++ s]
  | fuel + 1, acc, s =>
    if sep.isPrefixOf s ∧ sep ≠ [] then
      acc.reverse :: splitSubGo sep fuel [] (s.drop sep.length)
    else
      match s with
      | [] => [acc.reverse]
      | c :: rest => splitSubGo sep fuel (c :: acc) rest

/-- Rust `str::split(&str)` with a non-empty pattern: left to right,
non-overlapping occurrences of `sep`. -/
def splitSub (sep s : List Char) : List (List Char) :=
  splitSubGo sep s.length [] s

/-- Rust `str::len`: the UTF-8 byte length. -/
def str_len (s : String) : Nat :=
  s.data.foldl (fun n c => n + c.utf8Size) 0

/-- Rust `str::trim` (ASCII whitespace). -/
def str_trim (s : String) : String :=
  String.mk (((s.data.dropWhile Char.isWhitespace).reverse.dropWhile
    Char.isWhitespace).reverse)

/-- Rust `usize::from_str`: optional leading `+`, one or more ASCII digits,
value at most `usize::MAX = 2 ^ 64 - 1`. -/
def parse_usize (s : String) : Option Nat :=
  let t := match s.data with
    | '+' :: rest => rest
    | l => l
  if t ≠ [] ∧ t.all Char.isDigit then
    let n := t.foldl (fun acc c => acc * 10 + (c.toNat - 48)) 0
    if n < 2 ^ 64 then some n else none
  else none

/-! ## Data model (`src/models.rs`) -/

/-- Model of `FieldData`; `contrast` is an `f64` in the source, kept abstract as an
integer stand-in since no embedded operation computes or inspects it. -/
structure FieldData where
  value : String
  color : String
  contrast : Int
deriving DecidableEq

structure LogEvent where
  time : Int
  raw : String
  fields : List (String × FieldData)
  parser : Option String
deriving DecidableEq

structure StatsEvent where
  client_count : Nat
  conn_count : Nat
  clients : List String
deriving DecidableEq

/-- The payload of an `SseEvent`; the source stores the serialised JSON
string, modelled by the structured value itself. -/
inductive SsePayload where
  | log (e : LogEvent)
  | stats (s : StatsEvent)
  | suspension (suspended : Bool)
deriving DecidableEq

structure SseEvent where
  event_type : String
  data : SsePayload
deriving DecidableEq

/-! ## `Channel` (`src/channel_manager.rs`) -/

def HISTORY_SIZE : Nat := 10

def U64_MOD : Nat := 2 ^ 64

/-- Model of `Channel`: `receiver_count` is `sender.receiver_count()` (live broadcast
receivers), `sent` is the trace of `sender.send` calls, `clients` the keys
of the clients map in insertion order. -/
structure Channel where
  receiver_count : Nat
  sent : List SseEvent
  history : List SseEvent
  clients : List String
  suspended : Bool
  log_count_current_minute : Nat
  current_minute_timestamp : Nat
deriving DecidableEq

def Channel.new : Channel :=
  { receiver_count := 0
    sent := []
    history := []
    clients := []
    suspended := false
    log_count_current_minute := 0
    current_minute_timestamp := 0 }

def Channel.subscriber_count (c : Channel) : Nat :=
  c.receiver_count

def Channel.is_suspended (c : Channel) : Bool :=
  c.suspended

/-- Embeds `Channel::record_logs`: the suspended early return, then the minute
bucket comparison against `SystemTime::now` seconds (`now_secs`), reset or
wrapping `fetch_add`, and the ceiling check on the same-minute branch. -/
def Channel.record_logs (c : Channel) (count now_secs limit : Nat) :
    Channel × Bool :=
  if c.suspended then (c, false)
  else
    let now_minutes := now_secs / 60
    if now_minutes ≠ c.current_minute_timestamp then
      ({ c with current_minute_timestamp := now_minutes,
                log_count_current_minute := count % U64_MOD }, true)
    else
      let new_count := (c.log_count_current_minute + count) % U64_MOD
      if new_count > limit then
        ({ c with log_count_current_minute := new_count,
                  suspended := true }, false)
      else
        ({ c with log_count_current_minute := new_count }, true)

def mk_log_sse (e : LogEvent) : SseEvent :=
  { event_type := "log", data := SsePayload.log e }

/-- Embeds `Channel::publish_log`: push onto history, trim the oldest entry when
the length exceeds `HISTORY_SIZE`, then broadcast. -/
def Channel.publish_log (c : Channel) (event : LogEvent) : Channel :=
  let sse_event := mk_log_sse event
  let history := c.history ++ [sse_event]
  let history := if history.length > HISTORY_SIZE then history.drop 1
    else history
  { c with history := history, sent := c.sent ++ [sse_event] }

/-- Embeds `Channel::publish_stats`: broadcast only, history untouched. -/
def Channel.publish_stats (c : Channel) (stats : StatsEvent) : Channel :=
  { c with sent := c.sent ++ [{ event_type := "stats",
                                data := SsePayload.stats stats }] }

/-- Embeds `Channel::publish_suspension`: broadcast only, history untouched. -/
def Channel.publish_suspension (c : Channel) (suspended : Bool) : Channel :=
  { c with sent := c.sent ++ [{ event_type := "suspension",
                                data := SsePayload.suspension suspended }] }

def Channel.get_stats (c : Channel) : StatsEvent :=
  { client_count := c.clients.length
    conn_count := c.subscriber_count
    clients := c.clients }

/-- The two-phase stream returned by `Channel::subscribe`: the finite
replay snapshot; live events follow from the broadcast feed. -/
structure Subscription where
  replay : List SseEvent
deriving DecidableEq

/-- Embeds `Channel::subscribe`: insert the fresh client id, add a broadcast
receiver, snapshot the history. Total: there is no failure case. -/
def Channel.subscribe (c : Channel) (client_id : String) :
    Channel × Subscription :=
  let clients := if c.clients.contains client_id then c.clients
    else c.clients ++ [client_id]
  ({ c with clients := clients, receiver_count := c.receiver_count + 1 },
   { replay := c.history })

/-- Embeds `ClientGuard::drop` plus the receiver going away when a subscription
ends. -/
def Channel.drop_subscription (c : Channel) (client_id : String) : Channel :=
  { c with clients := c.clients.erase client_id,
           receiver_count := c.receiver_count - 1 }

/-- The state-mutating operations of a `Channel`. -/
inductive Op where
  | recordLogs (count now_secs limit : Nat)
  | publishLog (e : LogEvent)
  | publishStats (s : StatsEvent)
  | publishSuspension (b : Bool)
  | subscribe (client_id : String)
  | dropSubscription (client_id : String)

def Channel.step (c : Channel) : Op → Channel
  | Op.recordLogs count now_secs limit =>
      (c.record_logs count now_secs limit).1
  | Op.publishLog e => c.publish_log e
  | Op.publishStats s => c.publish_stats s
  | Op.publishSuspension b => c.publish_suspension b
  | Op.subscribe client_id => (c.subscribe client_id).1
  | Op.dropSubscription client_id => c.drop_subscription client_id

def run_ops (c : Channel) (ops : List Op) : Channel :=
  ops.foldl Channel.step c

/-! ## `ChannelManager` (`src/channel_manager.rs`) -/

structure ChannelManager where
  channels : List (String × Channel)
deriving DecidableEq

def ChannelManager.new : ChannelManager :=
  { channels := [] }

def ChannelManager.get_channel (m : ChannelManager) (name : String) :
    Option Channel :=
  (m.channels.find? (fun p => p.1 = name)).map Prod.snd

/-- Embeds `ChannelManager::get_or_create_channel`; the returned handle aliases
the stored one, so callers that mutate it write back via `set_channel`. -/
def ChannelManager.get_or_create_channel (m : ChannelManager)
    (name : String) : Channel × ChannelManager :=
  match m.get_channel name with
  | some c => (c, m)
  | none => (Channel.new, { channels := m.channels ++ [(name, Channel.new)] })

/-- Write-back of a mutation performed through the shared `Arc<Channel>`. -/
def ChannelManager.set_channel (m : ChannelManager) (name : String)
    (c : Channel) : ChannelManager :=
  { channels := m.channels.map (fun p => if p.1 = name then (p.1, c) else p) }

/-- Embeds `ChannelManager::garbage_collect`: collect the zero-subscriber names,
then remove each such entry that still has zero subscribers.  The spawned
10-second task in the source only logs an eligibility message and performs
no mutation, so it has no counterpart in the state. -/
def ChannelManager.garbage_collect (m : ChannelManager) : ChannelManager :=
  let to_remove := (m.channels.filter
    (fun p => p.2.subscriber_count == 0)).map Prod.fst
  { channels := m.channels.filter
      (fun p => !(to_remove.contains p.1 && p.2.subscriber_count == 0)) }

/-! ## Parsing (`src/parsers/mod.rs`) -/

structure ParsedEvent where
  input_string : String
  parser : Option String
  fields : List (String × FieldData)
  time : Int
deriving DecidableEq

/-- Embeds `ParsedEvent::new`; `now_millis` stands for
`chrono::Utc::now().timestamp_millis()`. -/
def ParsedEvent.new (input_string : String) (now_millis : Int) : ParsedEvent :=
  { input_string := input_string
    parser := none
    fields := []
    time := now_millis }

/-- Embeds `ParsedEvent::parse`.  The outcomes of `parse_json` (serde_json) and of
`parse_structured_headers` (sfv attempts plus the legacy fallback), already
passed through `create_fields`, are the parameters `json_fields` and
`sh_fields`. -/
def ParsedEvent.parse (p : ParsedEvent)
    (json_fields sh_fields : Option (List (String × FieldData))) :
    ParsedEvent :=
  match json_fields with
  | some data => { p with parser := some "json", fields := data }
  | none =>
    match sh_fields with
    | some data =>
        { p with parser := some "structuredHeaders", fields := data }
    | none => { p with parser := none, fields := [] }

/-- Embeds `HashMap::insert` on an association list: overwrite or append. -/
def insert_field (m : List (String × String)) (k v : String) :
    List (String × String) :=
  if m.any (fun p => p.1 == k) then
    m.map (fun p => if p.1 == k then (k, v) else p)
  else m ++ [(k, v)]

/-- The quote-stripping step of the legacy parser: when the value both
starts and ends with `"` (or both with a single quote), the source takes
the byte slice `value[1..value.len() - 1]`, which panics when the value is
that single character; the panic is an `Except.error`. -/
def strip_pair_quotes (value : String) : Except String String :=
  let starts_ends := fun (q : Char) =>
    value.data.head? = some q ∧ value.data.getLast? = some q
  if starts_ends '"' ∨ starts_ends '\'' then
    if 2 ≤ str_len value then
      Except.ok (String.mk ((value.data.drop 1).dropLast))
    else Except.error "slice index starts at 1 but ends at 0"
  else Except.ok value

/-- The per-pair loop of `parse_legacy_structured_headers`: trim the pair,
find the first `=`, trim key and value, strip quotes (fallibly), insert. -/
def legacy_pairs (result : List (String × String)) :
    List (List Char) → Except String (List (String × String))
  | [] => Except.ok result
  | pr :: rest =>
    let pair := str_trim (String.mk pr)
    match pair.data.span (fun c => c ≠ '=') with
    | (_, []) => legacy_pairs result rest
    | (key, _ :: after) =>
      match strip_pair_quotes (str_trim (String.mk after)) with
      | Except.error e => Except.error e
      | Except.ok v =>
          legacy_pairs (insert_field result (str_trim (String.mk key)) v) rest

/-- Embeds `parse_legacy_structured_headers`: `None` when no `=` occurs or no pair
parses; `Except.error` models the reachable slice panic. -/
def parse_legacy_structured_headers (input : String) :
    Except String (Option (List (String × String))) :=
  if input.data.contains '=' then
    match legacy_pairs [] (splitChar ';' input.data) with
    | Except.error e => Except.error e
    | Except.ok result =>
        Except.ok (if result = [] then none else some result)
  else Except.ok none

/-! ## Request handlers (`src/main.rs`) -/

def MAX_SUBSCRIBERS_PER_STREAM : Nat := 30

def MIN_BUCKET_ID_LENGTH : Nat := 10

/-- The `max_subs` computation of `get_bucket`:
`bucket_id.split(";max-subs=").nth(1).and_then(parse).unwrap_or(30)`. -/
def max_subs (bucket_id : String) : Nat :=
  match (splitSub ";max-subs=".data bucket_id.data).get? 1 with
  | some s => (parse_usize (String.mk s)).getD MAX_SUBSCRIBERS_PER_STREAM
  | none => MAX_SUBSCRIBERS_PER_STREAM

inductive GetBucketResult where
  | notFound
  | tooManyRequests
  | eventStream (replay : List SseEvent)
  | htmlViewer
deriving DecidableEq

/-- Embeds `get_bucket`: 404 on short ids, then (on the event-stream branch) the
get-or-create, the caller-side admission check against `max_subs`, and on
admission the subscribe / stats publication.  `accept_event_stream` is
whether the Accept header equals `text/event-stream`; `client_id` is the
uuid minted inside `Channel::subscribe`. -/
def get_bucket (m : ChannelManager) (bucket_id : String)
    (accept_event_stream : Bool) (client_id : String) :
    GetBucketResult × ChannelManager :=
  if str_len bucket_id < MIN_BUCKET_ID_LENGTH then
    (GetBucketResult.notFound, m)
  else if accept_event_stream then
    let ms := max_subs bucket_id
    let cm := m.get_or_create_channel bucket_id
    if ms ≤ cm.1.subscriber_count then
      (GetBucketResult.tooManyRequests, cm.2)
    else
      let cs := cm.1.subscribe client_id
      let stats := cs.1.get_stats
      let channel := cs.1.publish_stats stats
      (GetBucketResult.eventStream cs.2.replay,
       cm.2.set_channel bucket_id channel)
  else (GetBucketResult.htmlViewer, m)

/-- The `LogEvent` built by `post_events` for one line, given the parser
collaborator's outcome for that line. -/
def line_log_event (parse_line : String → ParsedEvent) (l : List Char) :
    LogEvent :=
  let line := String.mk l
  let event := parse_line line
  { time := event.time, raw := line, fields := event.fields,
    parser := event.parser }

/-- Embeds `post_events`: 400 on an empty body or no non-empty lines, otherwise
get-or-create the channel and `publish_log` every non-empty line.
`parse_line` stands for `ParsedEvent::new` followed by `parse`. -/
def post_events (parse_line : String → ParsedEvent) (m : ChannelManager)
    (bucket_id body : String) : Nat × ChannelManager :=
  if body = "" then (400, m)
  else
    let lines := (splitChar '\n' body.data).filter (fun l => !l.isEmpty)
    if lines = [] then (400, m)
    else
      let cm := m.get_or_create_channel bucket_id
      let channel := lines.foldl
        (fun c l => c.publish_log (line_log_event parse_line l)) cm.1
      (204, cm.2.set_channel bucket_id channel)

/-! ## Helpers for the statements -/

def ingest_all (c : Channel) (events : List LogEvent) : Channel :=
  events.foldl Channel.publish_log c

/-- A sequence of `record_logs` calls, each `(now_secs, count)`, returning
the final channel and the list of returned booleans. -/
def record_logs_seq (c : Channel) (calls : List (Nat × Nat)) (limit : Nat) :
    Channel × List Bool :=
  match calls with
  | [] => (c, [])
  | (now_secs, count) :: rest =>
    let r := c.record_logs count now_secs limit
    let rs := record_logs_seq r.1 rest limit
    (rs.1, r.2 :: rs.2)

def sum_counts (calls : List (Nat × Nat)) : Nat :=
  (calls.map Prod.snd).sum

/-- Eleven distinct log events, a concrete over-capacity ingestion run. -/
def eleven_events : List LogEvent :=
  (List.range 11).map (fun i =>
    { time := Int.ofNat i, raw := "event", fields := [], parser := none })

/-- A parser collaborator that classifies nothing. -/
def plain_parse_line : String → ParsedEvent :=
  fun line => ParsedEvent.new line 0

def suspended_channel : Channel :=
  { Channel.new with suspended := true }

def one_channel_manager : ChannelManager :=
  { channels := [("bucket-one", Channel.new)] }

def suspended_manager : ChannelManager :=
  { channels := [("bucket-one", suspended_channel)] }

/-! ## Lemmas about `record_logs` -/

lemma record_logs_of_suspended (c : Channel) (count now_secs limit : Nat)
    (h : c.suspended = true) :
    c.record_logs count now_secs limit = (c, false) := by
  simp [Channel.record_logs, h]

lemma record_logs_new_minute (c : Channel) (count now_secs limit : Nat)
    (h : c.suspended = false)
    (hm : now_secs / 60 ≠ c.current_minute_timestamp) :
    c.record_logs count now_secs limit =
      ({ c with current_minute_timestamp := now_secs / 60,
                log_count_current_minute := count % U64_MOD }, true) := by
  simp [Channel.record_logs, h, hm]

lemma record_logs_same_minute_accept (c : Channel)
    (count now_secs limit : Nat) (h : c.suspended = false)
    (hm : now_secs / 60 = c.current_minute_timestamp)
    (hle : (c.log_count_current_minute + count) % U64_MOD ≤ limit) :
    c.record_logs count now_secs limit =
      ({ c with log_count_current_minute :=
          (c.log_count_current_minute + count) % U64_MOD }, true) := by
  simp [Channel.record_logs, h, hm, Nat.not_lt.mpr hle]

lemma record_logs_same_minute_overflow (c : Channel)
    (count now_secs limit : Nat) (h : c.suspended = false)
    (hm : now_secs / 60 = c.current_minute_timestamp)
    (hgt : limit < (c.log_count_current_minute + count) % U64_MOD) :
    c.record_logs count now_secs limit =
      ({ c with
          log_count_current_minute :=
            (c.log_count_current_minute + count) % U64_MOD,
          suspended := true }, false) := by
  simp [Channel.record_logs, h, hm, hgt]

lemma sum_counts_cons (now_secs count : Nat) (tl : List (Nat × Nat)) :
    sum_counts ((now_secs, count) :: tl) = count + sum_counts tl := by
  simp [sum_counts]

/-- A run of `record_logs` calls all falling in minute `T` whose counts,
together with any count already accumulated for `T`, stay at or below the
ceiling: every call is accepted and the channel stays out of suspension. -/
lemma record_logs_seq_accepted :
    ∀ (calls : List (Nat × Nat)) (c : Channel) (T limit : Nat),
    c.suspended = false → limit < U64_MOD →
    (∀ p ∈ calls, p.1 / 60 = T) →
    (if c.current_minute_timestamp = T then c.log_count_current_minute
      else 0) + sum_counts calls ≤ limit →
    (record_logs_seq c calls limit).2.all (fun b => b) = true ∧
    (record_logs_seq c calls limit).1.suspended = false ∧
    ((record_logs_seq c calls limit).1.current_minute_timestamp =
      if calls = [] then c.current_minute_timestamp else T) ∧
    ((record_logs_seq c calls limit).1.log_count_current_minute =
      if calls = [] then c.log_count_current_minute else
        (if c.current_minute_timestamp = T then c.log_count_current_minute
          else 0) + sum_counts calls)
  | [], c, T, limit, hs, _, _, _ => by
    simp [record_logs_seq, hs]
  | (now_secs, count) :: tl, c, T, limit, hs, hl, hT, hsum => by
    have hm : now_secs / 60 = T := hT (now_secs, count) (by simp)
    have hTtl : ∀ p ∈ tl, p.1 / 60 = T :=
      fun p hp => hT p (List.mem_cons_of_mem _ hp)
    rw [sum_counts_cons] at hsum
    by_cases hc : c.current_minute_timestamp = T
    · rw [if_pos hc] at hsum
      have hmod : (c.log_count_current_minute + count) % U64_MOD =
          c.log_count_current_minute + count :=
        Nat.mod_eq_of_lt (by omega)
      have hstep := record_logs_same_minute_accept c count now_secs limit hs
        (by rw [hm, hc]) (by rw [hmod]; omega)
      have ih := record_logs_seq_accepted tl
        { c with log_count_current_minute :=
            (c.log_count_current_minute + count) % U64_MOD }
        T limit hs hl hTtl (by simp only [hc, if_pos]; rw [hmod]; omega)
      rw [record_logs_seq, hstep]
      obtain ⟨ih1, ih2, ih3, ih4⟩ := ih
      refine ⟨by simp [ih1], ih2, ?_, ?_⟩
      · rw [ih3]
        by_cases htl : tl = [] <;> simp [htl, hc]
      · rw [ih4]
        by_cases htl : tl = []
        all_goals simp [htl, hc, hmod, sum_counts_cons, sum_counts]
        all_goals omega
    · rw [if_neg hc] at hsum
      have hmod : count % U64_MOD = count := Nat.mod_eq_of_lt (by omega)
      have hstep := record_logs_new_minute c count now_secs limit hs
        (by rw [hm]; exact fun h2 => hc h2.symm)
      have ih := record_logs_seq_accepted tl
        { c with current_minute_timestamp := now_secs / 60,
                 log_count_current_minute := count % U64_MOD }
        T limit hs hl hTtl (by simp only [hm, if_pos]; rw [hmod]; omega)
      rw [record_logs_seq, hstep]
      obtain ⟨ih1, ih2, ih3, ih4⟩ := ih
      refine ⟨by simp [ih1], ih2, ?_, ?_⟩
      · rw [ih3]
        by_cases htl : tl = [] <;> simp [htl, hm]
      · rw [ih4]
        by_cases htl : tl = [] <;>
          simp [htl, hm, hmod, sum_counts_cons, sum_counts] <;> omega

/-! ## Lemmas about history and fan-out -/

lemma publish_log_history (c : Channel) (e : LogEvent)
    (h : c.history.length ≤ HISTORY_SIZE) :
    (c.publish_log e).history =
      (c.history ++ [mk_log_sse e]).drop
        (c.history.length + 1 - HISTORY_SIZE) ∧
    (c.publish_log e).history.length ≤ HISTORY_SIZE := by
  unfold Channel.publish_log
  by_cases hlen : (c.history ++ [mk_log_sse e]).length > HISTORY_SIZE
  · have hl : c.history.length = HISTORY_SIZE := by
      simp at hlen; omega
    simp only [hlen, if_pos]
    have hone : c.history.length + 1 - HISTORY_SIZE = 1 := by omega
    constructor
    · rw [hone]
    · simp [hl]
  · simp only [hlen, if_neg, if_false]
    have hl : c.history.length + 1 ≤ HISTORY_SIZE := by
      simp at hlen; omega
    constructor
    · rw [Nat.sub_eq_zero_of_le hl, List.drop_zero]
    · simp; omega

lemma ingest_all_history (es : List LogEvent) : ∀ (c : Channel),
    c.history.length ≤ HISTORY_SIZE →
    (ingest_all c es).history =
      (c.history ++ es.map mk_log_sse).drop
        (c.history.length + es.length - HISTORY_SIZE) ∧
    (ingest_all c es).history.length ≤ HISTORY_SIZE := by
  induction es using List.reverseRecOn with
  | nil =>
    intro c h
    refine ⟨?_, by simpa [ingest_all] using h⟩
    simp only [ingest_all, List.foldl_nil, List.map_nil, List.append_nil,
      List.length_nil, Nat.add_zero]
    rw [Nat.sub_eq_zero_of_le h, List.drop_zero]
  | append_singleton es e ih =>
    intro c h
    have hfold : ingest_all c (es ++ [e]) = (ingest_all c es).publish_log e := by
      simp [ingest_all]
    obtain ⟨ih1, ih2⟩ := ih c h
    obtain ⟨p1, p2⟩ := publish_log_history (ingest_all c es) e ih2
    rw [hfold]
    refine ⟨?_, p2⟩
    rw [p1, ih1]
    have hdlen : c.history.length + es.length - HISTORY_SIZE ≤
        (c.history ++ es.map mk_log_sse).length := by
      rw [List.length_append, List.length_map]
      omega
    rw [← List.drop_append_of_le_length hdlen, List.drop_drop]
    have hlen2 : ((c.history ++ es.map mk_log_sse).drop
        (c.history.length + es.length - HISTORY_SIZE)).length =
        c.history.length + es.length -
          (c.history.length + es.length - HISTORY_SIZE) := by
      simp
    rw [hlen2]
    have harr : c.history.length + es.length - HISTORY_SIZE +
        (c.history.length + es.length -
          (c.history.length + es.length - HISTORY_SIZE) + 1 - HISTORY_SIZE) =
        c.history.length + (es ++ [e]).length - HISTORY_SIZE := by
      simp; omega
    rw [harr, List.map_append, ← List.append_assoc]
    simp

lemma ingest_all_sent (es : List LogEvent) : ∀ (c : Channel),
    (ingest_all c es).sent = c.sent ++ es.map mk_log_sse := by
  induction es with
  | nil => intro c; simp [ingest_all]
  | cons e tl ih =>
    intro c
    have : ingest_all c (e :: tl) = ingest_all (c.publish_log e) tl := by
      simp [ingest_all]
    rw [this, ih]
    simp [Channel.publish_log]

lemma ingest_all_suspended (es : List LogEvent) : ∀ (c : Channel),
    (ingest_all c es).suspended = c.suspended := by
  induction es with
  | nil => intro c; simp [ingest_all]
  | cons e tl ih =>
    intro c
    have : ingest_all c (e :: tl) = ingest_all (c.publish_log e) tl := by
      simp [ingest_all]
    rw [this, ih]
    simp [Channel.publish_log]

lemma record_logs_history_eq (c : Channel) (count now_secs limit : Nat) :
    (c.record_logs count now_secs limit).1.history = c.history := by
  rcases Bool.eq_false_or_eq_true c.suspended with hs | hs
  case inl => rw [record_logs_of_suspended c count now_secs limit hs]
  by_cases hm : now_secs / 60 = c.current_minute_timestamp
  · by_cases hlt : limit < (c.log_count_current_minute + count) % U64_MOD
    · rw [record_logs_same_minute_overflow c count now_secs limit hs hm hlt]
    · rw [record_logs_same_minute_accept c count now_secs limit hs hm
        (Nat.not_lt.mp hlt)]
  · rw [record_logs_new_minute c count now_secs limit hs hm]

lemma step_history_wf (c : Channel) (op : Op)
    (h : c.history.length ≤ HISTORY_SIZE ∧
      ∀ e ∈ c.history, ∃ le, e = mk_log_sse le) :
    (c.step op).history.length ≤ HISTORY_SIZE ∧
    ∀ e ∈ (c.step op).history, ∃ le, e = mk_log_sse le := by
  obtain ⟨h1, h2⟩ := h
  cases op with
  | recordLogs count now_secs limit =>
    have hst : (c.step (Op.recordLogs count now_secs limit)).history =
        c.history := record_logs_history_eq c count now_secs limit
    rw [hst]
    exact ⟨h1, h2⟩
  | publishLog e =>
    have := publish_log_history c e h1
    refine ⟨this.2, ?_⟩
    intro x hx
    show ∃ le, x = mk_log_sse le
    have hx2 : x ∈ (c.history ++ [mk_log_sse e]).drop
        (c.history.length + 1 - HISTORY_SIZE) := by
      rw [← this.1]; exact hx
    have hx3 : x ∈ c.history ++ [mk_log_sse e] := List.mem_of_mem_drop hx2
    rcases List.mem_append.mp hx3 with hx4 | hx4
    · exact h2 x hx4
    · exact ⟨e, by simpa using hx4⟩
  | publishStats s => exact ⟨h1, h2⟩
  | publishSuspension b => exact ⟨h1, h2⟩
  | subscribe client_id => exact ⟨h1, h2⟩
  | dropSubscription client_id => exact ⟨h1, h2⟩

lemma run_ops_history_wf (ops : List Op) : ∀ (c : Channel),
    (c.history.length ≤ HISTORY_SIZE ∧
      ∀ e ∈ c.history, ∃ le, e = mk_log_sse le) →
    (run_ops c ops).history.length ≤ HISTORY_SIZE ∧
    ∀ e ∈ (run_ops c ops).history, ∃ le, e = mk_log_sse le := by
  induction ops with
  | nil => intro c h; simpa [run_ops] using h
  | cons op tl ih =>
    intro c h
    have : run_ops c (op :: tl) = run_ops (c.step op) tl := by
      simp [run_ops]
    rw [this]
    exact ih _ (step_history_wf c op h)

/-! ## Lemmas about the registry -/

lemma get_or_create_channel_of_some (m : ChannelManager) (name : String)
    (c : Channel) (h : m.get_channel name = some c) :
    m.get_or_create_channel name = (c, m) := by
  unfold ChannelManager.get_or_create_channel
  rw [h]

lemma get_or_create_channel_of_none (m : ChannelManager) (name : String)
    (h : m.get_channel name = none) :
    m.get_or_create_channel name =
      (Channel.new, { channels := m.channels ++ [(name, Channel.new)] }) := by
  unfold ChannelManager.get_or_create_channel
  rw [h]

lemma get_or_create_channel_get (m : ChannelManager) (name : String) :
    (m.get_or_create_channel name).2.get_channel name =
      some (m.get_or_create_channel name).1 := by
  cases hg : m.get_channel name with
  | some c => rw [get_or_create_channel_of_some m name c hg]; exact hg
  | none =>
    rw [get_or_create_channel_of_none m name hg]
    unfold ChannelManager.get_channel at hg ⊢
    have hnone : m.channels.find? (fun p => p.1 = name) = none := by
      rcases hfind : m.channels.find? (fun p => p.1 = name) with _ | p
      · exact hfind
      · rw [hfind] at hg; simp at hg
    simp [List.find?_append, hnone]

lemma find?_map_set (name : String) (c : Channel) :
    ∀ (l : List (String × Channel)),
    (l.find? (fun p => p.1 = name)).isSome = true →
    ((l.map (fun p => if p.1 = name then (p.1, c) else p)).find?
      (fun p => p.1 = name)) = some (name, c)
  | [], h => by simp at h
  | (k, ch) :: tl, h => by
    by_cases hk : k = name
    · subst hk
      simp [List.find?_cons]
    · have htl : (tl.find? (fun p => p.1 = name)).isSome = true := by
        simpa [List.find?_cons, hk] using h
      simpa [List.find?_cons, hk] using find?_map_set name c tl htl

lemma set_channel_get (m : ChannelManager) (name : String) (c : Channel)
    (h : (m.get_channel name).isSome = true) :
    (m.set_channel name c).get_channel name = some c := by
  unfold ChannelManager.get_channel at h
  unfold ChannelManager.get_channel ChannelManager.set_channel
  have : (m.channels.find? (fun p => p.1 = name)).isSome = true := by
    rcases hfind : m.channels.find? (fun p => p.1 = name) with _ | p
    · rw [hfind] at h; simp at h
    · rw [hfind]; rfl
  rw [find?_map_set name c m.channels this]
  rfl

/-! ## Lemmas about suspension -/

lemma step_suspended_monotone (c : Channel) (op : Op)
    (h : c.suspended = true) : (c.step op).suspended = true := by
  cases op with
  | recordLogs count now_secs limit =>
    have hst : c.step (Op.recordLogs count now_secs limit) =
        (c.record_logs count now_secs limit).1 := rfl
    rw [hst, record_logs_of_suspended c count now_secs limit h]
    exact h
  | publishLog e => exact h
  | publishStats s => exact h
  | publishSuspension b => exact h
  | subscribe client_id => exact h
  | dropSubscription client_id => exact h

lemma step_suspended_of_flip (c : Channel) (op : Op)
    (h0 : c.suspended = false) (h1 : (c.step op).suspended = true) :
    ∃ count now_secs limit, op = Op.recordLogs count now_secs limit ∧
      now_secs / 60 = c.current_minute_timestamp ∧
      limit < (c.log_count_current_minute + count) % U64_MOD := by
  cases op with
  | recordLogs count now_secs limit =>
    refine ⟨count, now_secs, limit, rfl, ?_⟩
    have hst : c.step (Op.recordLogs count now_secs limit) =
        (c.record_logs count now_secs limit).1 := rfl
    rw [hst] at h1
    by_cases hm : now_secs / 60 = c.current_minute_timestamp
    · by_cases hlt : limit < (c.log_count_current_minute + count) % U64_MOD
      · exact ⟨hm, hlt⟩
      · rw [record_logs_same_minute_accept c count now_secs limit h0 hm
          (Nat.not_lt.mp hlt)] at h1
        rw [h0] at h1
        simp at h1
    · rw [record_logs_new_minute c count now_secs limit h0 hm] at h1
      rw [h0] at h1
      simp at h1
  | publishLog e =>
    have hst : (c.step (Op.publishLog e)).suspended = c.suspended := rfl
    rw [hst, h0] at h1
    simp at h1
  | publishStats s =>
    have hst : (c.step (Op.publishStats s)).suspended = c.suspended := rfl
    rw [hst, h0] at h1
    simp at h1
  | publishSuspension b =>
    have hst : (c.step (Op.publishSuspension b)).suspended = c.suspended := rfl
    rw [hst, h0] at h1
    simp at h1
  | subscribe client_id =>
    have hst : (c.step (Op.subscribe client_id)).suspended = c.suspended := rfl
    rw [hst, h0] at h1
    simp at h1
  | dropSubscription client_id =>
    have hst : (c.step (Op.dropSubscription client_id)).suspended =
        c.suspended := rfl
    rw [hst, h0] at h1
    simp at h1

/-! ## Claims -/

/-- C1, counterexample: on the first call of a new minute (fresh channel,
stored minute 0, wall clock inside minute 1) with `count = 6` against
ceiling `5`, the updated running count for the current minute is `6`, which
exceeds the ceiling, yet `record_logs` returns `true` and the channel stays
out of `Suspended` — the claim's overflow rule fails on the reset branch. -/
theorem C1_new_minute_overflow_counterexample :
    Channel.new.suspended = false ∧
    (Channel.new.record_logs 6 60 5).1.log_count_current_minute = 6 ∧
    6 > 5 ∧
    (Channel.new.record_logs 6 60 5).2 = true ∧
    (Channel.new.record_logs 6 60 5).1.suspended = false := by
  refine ⟨rfl, by decide, by decide, by decide, by decide⟩

/-- C1 (amended): while `Active`, a call in the same minute as the stored
window suspends and returns false exactly when the updated count exceeds
the ceiling; the first call of a new minute resets the count to the call's
`count` argument and returns true unconditionally, even when that argument
alone exceeds the ceiling; a sequence of calls totalling exactly the
ceiling within one minute leaves the state `Active` with every call
accepted. -/
theorem C1_rate_admission_amended :
    (∀ (c : Channel) (count now_secs limit : Nat),
      c.suspended = false →
      now_secs / 60 = c.current_minute_timestamp →
      limit < (c.log_count_current_minute + count) % U64_MOD →
      (c.record_logs count now_secs limit).2 = false ∧
      (c.record_logs count now_secs limit).1.suspended = true) ∧
    (∀ (c : Channel) (count now_secs limit : Nat),
      c.suspended = false →
      now_secs / 60 = c.current_minute_timestamp →
      (c.log_count_current_minute + count) % U64_MOD ≤ limit →
      (c.record_logs count now_secs limit).2 = true ∧
      (c.record_logs count now_secs limit).1.suspended = false) ∧
    (∀ (c : Channel) (count now_secs limit : Nat),
      c.suspended = false →
      now_secs / 60 ≠ c.current_minute_timestamp →
      (c.record_logs count now_secs limit).2 = true ∧
      (c.record_logs count now_secs limit).1.suspended = false ∧
      (c.record_logs count now_secs limit).1.log_count_current_minute =
        count % U64_MOD) ∧
    (∀ (T limit : Nat) (calls : List (Nat × Nat)),
      limit < U64_MOD →
      (∀ p ∈ calls, p.1 / 60 = T) →
      sum_counts calls = limit →
      (record_logs_seq Channel.new calls limit).2.all (fun b => b) = true ∧
      (record_logs_seq Channel.new calls limit).1.suspended = false) := by
  refine ⟨?_, ?_, ?_, ?_⟩
  · intro c count now_secs limit hs hm hgt
    rw [record_logs_same_minute_overflow c count now_secs limit hs hm hgt]
    exact ⟨rfl, rfl⟩
  · intro c count now_secs limit hs hm hle
    rw [record_logs_same_minute_accept c count now_secs limit hs hm hle]
    exact ⟨rfl, hs⟩
  · intro c count now_secs limit hs hm
    rw [record_logs_new_minute c count now_secs limit hs hm]
    exact ⟨rfl, hs, rfl⟩
  · intro T limit calls hlim hT hsum
    have h := record_logs_seq_accepted calls Channel.new T limit rfl hlim hT
      (by simp [Channel.new, hsum])
    exact ⟨h.1, h.2.1⟩

theorem C1_rate_admission_amended_witness :
    ((Channel.new.record_logs 6 0 5).2 = false ∧
      (Channel.new.record_logs 6 0 5).1.suspended = true) ∧
    ((Channel.new.record_logs 5 0 5).2 = true ∧
      (Channel.new.record_logs 5 0 5).1.suspended = false) ∧
    ((Channel.new.record_logs 6 60 5).2 = true ∧
      (Channel.new.record_logs 6 60 5).1.suspended = false ∧
      (Channel.new.record_logs 6 60 5).1.log_count_current_minute =
        6 % U64_MOD) ∧
    ((record_logs_seq Channel.new [(30, 2), (59, 3)] 5).2.all
        (fun b => b) = true ∧
      (record_logs_seq Channel.new [(30, 2), (59, 3)] 5).1.suspended =
        false) :=
  ⟨C1_rate_admission_amended.1 Channel.new 6 0 5 rfl (by decide) (by decide),
   C1_rate_admission_amended.2.1 Channel.new 5 0 5 rfl (by decide)
     (by decide),
   C1_rate_admission_amended.2.2.1 Channel.new 6 60 5 rfl (by decide),
   C1_rate_admission_amended.2.2.2 0 5 [(30, 2), (59, 3)] (by decide)
     (by decide) (by decide)⟩

/-- C4: the suspended flag is monotone under every core operation (no
operation resets it), flips false → true only through a `record_logs` call
whose minute matches the stored window and whose updated count exceeds the
ceiling, and once suspended every `record_logs` call returns false leaving
the whole channel state (counter and stored minute included) unchanged. -/
theorem C4_suspension_sticky :
    (∀ (c : Channel) (op : Op), c.suspended = true →
      (c.step op).suspended = true) ∧
    (∀ (c : Channel) (op : Op), c.suspended = false →
      (c.step op).suspended = true →
      ∃ count now_secs limit, op = Op.recordLogs count now_secs limit ∧
        now_secs / 60 = c.current_minute_timestamp ∧
        limit < (c.log_count_current_minute + count) % U64_MOD) ∧
    (∀ (c : Channel) (count now_secs limit : Nat), c.suspended = true →
      c.record_logs count now_secs limit = (c, false)) :=
  ⟨step_suspended_monotone, step_suspended_of_flip,
   fun c count now_secs limit h =>
     record_logs_of_suspended c count now_secs limit h⟩

theorem C4_suspension_sticky_witness :
    (suspended_channel.step (Op.publishSuspension false)).suspended = true ∧
    (∃ count now_secs limit,
      Op.recordLogs 6 0 5 = Op.recordLogs count now_secs limit ∧
      now_secs / 60 = Channel.new.current_minute_timestamp ∧
      limit < (Channel.new.log_count_current_minute + count) % U64_MOD) ∧
    suspended_channel.record_logs 3 0 5 = (suspended_channel, false) :=
  ⟨C4_suspension_sticky.1 suspended_channel (Op.publishSuspension false) rfl,
   C4_suspension_sticky.2.1 Channel.new (Op.recordLogs 6 0 5) rfl
     (by decide),
   C4_suspension_sticky.2.2 suspended_channel 3 0 5 rfl⟩

/-- C5: ceiling-many counts recorded within minute `T`, followed by
ceiling-many more within minute `T + 1`, are all accepted — the window is
fixed per minute, the stored minute resets at the boundary, and no count
carries over. -/
theorem C5_minute_boundary (T limit : Nat) (calls1 calls2 : List (Nat × Nat))
    (hlim : limit < U64_MOD)
    (h1 : ∀ p ∈ calls1, p.1 / 60 = T) (hs1 : sum_counts calls1 = limit)
    (h2 : ∀ p ∈ calls2, p.1 / 60 = T + 1) (hs2 : sum_counts calls2 = limit) :
    (record_logs_seq Channel.new calls1 limit).2.all (fun b => b) = true ∧
    (record_logs_seq (record_logs_seq Channel.new calls1 limit).1 calls2
      limit).2.all (fun b => b) = true ∧
    (record_logs_seq (record_logs_seq Channel.new calls1 limit).1 calls2
      limit).1.suspended = false := by
  obtain ⟨a1, s1, m1, c1⟩ := record_logs_seq_accepted calls1 Channel.new T
    limit rfl hlim h1 (by simp [Channel.new, hs1])
  have hneq : (record_logs_seq Channel.new calls1
      limit).1.current_minute_timestamp ≠ T + 1 := by
    rw [m1]
    by_cases hc : calls1 = []
    · simp [hc, Channel.new]
    · simp [hc]
  have r2 := record_logs_seq_accepted calls2
    (record_logs_seq Channel.new calls1 limit).1 (T + 1) limit s1 hlim h2
    (by rw [if_neg hneq, hs2]; omega)
  exact ⟨a1, r2.1, r2.2.1⟩

theorem C5_minute_boundary_witness :
    (record_logs_seq Channel.new [(30, 2), (59, 3)] 5).2.all
      (fun b => b) = true ∧
    (record_logs_seq (record_logs_seq Channel.new [(30, 2), (59, 3)] 5).1
      [(61, 5)] 5).2.all (fun b => b) = true ∧
    (record_logs_seq (record_logs_seq Channel.new [(30, 2), (59, 3)] 5).1
      [(61, 5)] 5).1.suspended = false :=
  C5_minute_boundary 0 5 [(30, 2), (59, 3)] [(61, 5)] (by decide)
    (by decide) (by decide) (by decide) (by decide)

/-- C2: evaluating the sweep at its failing input — a registry holding one
topic with zero subscribers — shows the entry is removed during the sweep
call itself: the name is gone from the index immediately, with no
10-second debounce re-check (the spawned delayed task in the source only
logs an eligibility message), so a subscription arriving during the
claimed debounce window cannot prevent the removal. -/
theorem C2_gc_removes_immediately :
    Channel.new.subscriber_count = 0 ∧
    one_channel_manager.get_channel "bucket-one" = some Channel.new ∧
    one_channel_manager.garbage_collect.get_channel "bucket-one" = none := by
  refine ⟨rfl, by decide, by decide⟩

/-- C3: every channel reachable by core operations keeps a history of at
most `HISTORY_SIZE = 10` events, all of them Log events; and after more
than 10 log ingestions a subscription taken afterwards replays exactly the
10 most recently ingested Log events, in publish order. -/
theorem C3_history_replay (ops : List Op) (es : List LogEvent)
    (client_id : String) (h : HISTORY_SIZE < es.length) :
    ((run_ops Channel.new ops).history.length ≤ HISTORY_SIZE ∧
      ∀ e ∈ (run_ops Channel.new ops).history, ∃ le, e = mk_log_sse le) ∧
    ((ingest_all (run_ops Channel.new ops) es).subscribe
      client_id).2.replay =
      (es.map mk_log_sse).drop (es.length - HISTORY_SIZE) := by
  have hwf := run_ops_history_wf ops Channel.new (by simp [Channel.new])
  refine ⟨hwf, ?_⟩
  have hrep : ((ingest_all (run_ops Channel.new ops) es).subscribe
      client_id).2.replay =
      (ingest_all (run_ops Channel.new ops) es).history := rfl
  rw [hrep, (ingest_all_history es (run_ops Channel.new ops) hwf.1).1]
  rw [List.drop_append_eq_append_drop]
  have h1 : (run_ops Channel.new ops).history.drop
      ((run_ops Channel.new ops).history.length + es.length -
        HISTORY_SIZE) = [] :=
    List.drop_eq_nil_of_le (by omega)
  rw [h1, List.nil_append]
  congr 1
  omega

theorem C3_history_replay_witness :
    HISTORY_SIZE < eleven_events.length ∧
    ((ingest_all (run_ops Channel.new []) eleven_events).subscribe
      "cid").2.replay =
      (eleven_events.map mk_log_sse).drop
        (eleven_events.length - HISTORY_SIZE) :=
  ⟨by decide, (C3_history_replay [] eleven_events "cid" (by decide)).2⟩

/-- C8: the claim that parsing never raises fails on the legacy fallback:
for the line `a="` the value after `=` is the single character `"`, which
both starts and ends with a double quote, so the source's byte slice
`value[1..value.len() - 1]` is `value[1..0]` and panics; an ordinary
unmatched plain-text line such as `hello world` does fall open to no
label. -/
theorem C8_legacy_slice_panic :
    parse_legacy_structured_headers "a=\"" =
      Except.error "slice index starts at 1 but ends at 0" ∧
    parse_legacy_structured_headers "a='" =
      Except.error "slice index starts at 1 but ends at 0" ∧
    parse_legacy_structured_headers "hello world" = Except.ok none := by
  refine ⟨by rfl, by rfl, by rfl⟩

/-- C6: the ingestion path publishes unconditionally — for a channel in
any rate-control state, `suspended` included, `post_events` appends every
non-empty line's Log event to the history (trimmed to the capacity) and
broadcasts it, never consulting `record_logs` or the suspended flag; the
final state is exactly the fold of `publish_log`, which leaves `suspended`
untouched. -/
theorem C6_ingest_ignores_rate_state (parse_line : String → ParsedEvent)
    (m : ChannelManager) (bucket_id body : String) (c : Channel)
    (hc : m.get_channel bucket_id = some c)
    (hl : (splitChar '\n' body.data).filter (fun l => !l.isEmpty) ≠ []) :
    (post_events parse_line m bucket_id body).1 = 204 ∧
    (post_events parse_line m bucket_id body).2.get_channel bucket_id =
      some (ingest_all c (((splitChar '\n' body.data).filter
        (fun l => !l.isEmpty)).map (line_log_event parse_line))) ∧
    (∀ (c0 : Channel) (es : List LogEvent),
      (ingest_all c0 es).sent = c0.sent ++ es.map mk_log_sse ∧
      (ingest_all c0 es).suspended = c0.suspended ∧
      (c0.history.length ≤ HISTORY_SIZE →
        (ingest_all c0 es).history =
          (c0.history ++ es.map mk_log_sse).drop
            (c0.history.length + es.length - HISTORY_SIZE))) := by
  have hb : ¬ body = "" := by
    intro h
    exact hl (by rw [h]; decide)
  refine ⟨?_, ?_, ?_⟩
  · simp only [post_events, if_neg hb, if_neg hl]
  · simp only [post_events, if_neg hb, if_neg hl,
      get_or_create_channel_of_some m bucket_id c hc]
    rw [set_channel_get m bucket_id _ (by rw [hc]; rfl)]
    simp [ingest_all, List.foldl_map]
  · intro c0 es
    exact ⟨ingest_all_sent es c0, ingest_all_suspended es c0,
      fun hh => (ingest_all_history es c0 hh).1⟩

theorem C6_ingest_ignores_rate_state_witness :
    suspended_manager.get_channel "bucket-one" = some suspended_channel ∧
    (splitChar '\n' ("hello").data).filter (fun l => !l.isEmpty) ≠ [] ∧
    (post_events plain_parse_line suspended_manager "bucket-one"
      "hello").1 = 204 ∧
    (post_events plain_parse_line suspended_manager "bucket-one"
      "hello").2.get_channel "bucket-one" =
      some (ingest_all suspended_channel
        (((splitChar '\n' ("hello").data).filter
          (fun l => !l.isEmpty)).map (line_log_event plain_parse_line))) :=
  ⟨by decide, by decide,
   (C6_ingest_ignores_rate_state plain_parse_line suspended_manager
     "bucket-one" "hello" suspended_channel (by decide) (by decide)).1,
   (C6_ingest_ignores_rate_state plain_parse_line suspended_manager
     "bucket-one" "hello" suspended_channel (by decide) (by decide)).2.1⟩

/-- C7: on the event-stream path with a long-enough identifier the request
is answered `tooManyRequests` exactly when the live receiver count of the
resolved channel has reached `max_subs` of the identifier; below the cap
the stream (whose replay is the channel's history) is returned — the
core's `subscribe` has no failure case.  `max_subs` is the second piece of
the split on `;max-subs=` when it parses, and 30 otherwise. -/
theorem C7_admission_cap (m : ChannelManager) (bucket_id client_id : String)
    (hlen : MIN_BUCKET_ID_LENGTH ≤ str_len bucket_id) :
    ((get_bucket m bucket_id true client_id).1 =
        GetBucketResult.tooManyRequests ↔
      max_subs bucket_id ≤
        (m.get_or_create_channel bucket_id).1.subscriber_count) ∧
    ((m.get_or_create_channel bucket_id).1.subscriber_count <
        max_subs bucket_id →
      (get_bucket m bucket_id true client_id).1 =
        GetBucketResult.eventStream
          (m.get_or_create_channel bucket_id).1.history) ∧
    (∀ s, (splitSub ";max-subs=".data bucket_id.data).get? 1 = some s →
      max_subs bucket_id =
        (parse_usize (String.mk s)).getD MAX_SUBSCRIBERS_PER_STREAM) ∧
    ((splitSub ";max-subs=".data bucket_id.data).get? 1 = none →
      max_subs bucket_id = MAX_SUBSCRIBERS_PER_STREAM) ∧
    MAX_SUBSCRIBERS_PER_STREAM = 30 := by
  have hnot : ¬ (str_len bucket_id < MIN_BUCKET_ID_LENGTH) :=
    Nat.not_lt.mpr hlen
  refine ⟨?_, ?_, ?_, ?_, rfl⟩
  · by_cases hadm : max_subs bucket_id ≤
        (m.get_or_create_channel bucket_id).1.subscriber_count
    · simp [get_bucket, hnot, hadm]
    · simp [get_bucket, hnot, hadm]
  · intro hlt
    have hadm : ¬ (max_subs bucket_id ≤
        (m.get_or_create_channel bucket_id).1.subscriber_count) :=
      Nat.not_le.mpr hlt
    simp [get_bucket, hnot, hadm, Channel.subscribe]
  · intro s hs
    rw [List.get?_eq_getElem?] at hs
    simp [max_subs, hs]
  · intro hs
    rw [List.get?_eq_getElem?] at hs
    simp [max_subs, hs]

theorem C7_admission_cap_witness :
    MIN_BUCKET_ID_LENGTH ≤ str_len "aaaaaaaaaa;max-subs=0" ∧
    ((get_bucket ChannelManager.new "aaaaaaaaaa;max-subs=0" true "cid").1 =
        GetBucketResult.tooManyRequests ↔
      max_subs "aaaaaaaaaa;max-subs=0" ≤
        (ChannelManager.new.get_or_create_channel
          "aaaaaaaaaa;max-subs=0").1.subscriber_count) ∧
    ((ChannelManager.new.get_or_create_channel
        "plain-bucket").1.subscriber_count < max_subs "plain-bucket" →
      (get_bucket ChannelManager.new "plain-bucket" true "cid").1 =
        GetBucketResult.eventStream
          (ChannelManager.new.get_or_create_channel
            "plain-bucket").1.history) :=
  ⟨by decide,
   (C7_admission_cap ChannelManager.new "aaaaaaaaaa;max-subs=0" "cid"
     (by decide)).1,
   (C7_admission_cap ChannelManager.new "plain-bucket" "cid"
     (by decide)).2.1⟩

/-- C9: when an event-stream request for an unseen name is rejected at the
cap, the registry nevertheless contains the name afterwards: get-or-create
ran before the capacity check and is not undone, so the rejected request's
final registry is exactly the get-or-create result, holding the fresh
channel under the requested name. -/
theorem C9_rejected_subscribe_creates_topic (m : ChannelManager)
    (bucket_id client_id : String)
    (hlen : MIN_BUCKET_ID_LENGTH ≤ str_len bucket_id)
    (hnew : m.get_channel bucket_id = none)
    (hrej : (get_bucket m bucket_id true client_id).1 =
      GetBucketResult.tooManyRequests) :
    (get_bucket m bucket_id true client_id).2 =
      (m.get_or_create_channel bucket_id).2 ∧
    (get_bucket m bucket_id true client_id).2.get_channel bucket_id =
      some Channel.new := by
  have hnot : ¬ (str_len bucket_id < MIN_BUCKET_ID_LENGTH) :=
    Nat.not_lt.mpr hlen
  by_cases hadm : max_subs bucket_id ≤
      (m.get_or_create_channel bucket_id).1.subscriber_count
  · have h2 : (get_bucket m bucket_id true client_id).2 =
        (m.get_or_create_channel bucket_id).2 := by
      simp [get_bucket, hnot, hadm]
    refine ⟨h2, ?_⟩
    rw [h2]
    have hg := get_or_create_channel_get m bucket_id
    rw [get_or_create_channel_of_none m bucket_id hnew] at hg ⊢
    exact hg
  · exfalso
    rw [show (get_bucket m bucket_id true client_id).1 =
        GetBucketResult.eventStream
          (m.get_or_create_channel bucket_id).1.history by
      simp [get_bucket, hnot, hadm, Channel.subscribe]] at hrej
    simp at hrej

theorem C9_rejected_subscribe_creates_topic_witness :
    MIN_BUCKET_ID_LENGTH ≤ str_len "aaaaaaaaaa;max-subs=0" ∧
    ChannelManager.new.get_channel "aaaaaaaaaa;max-subs=0" = none ∧
    (get_bucket ChannelManager.new "aaaaaaaaaa;max-subs=0" true "cid").1 =
      GetBucketResult.tooManyRequests ∧
    (get_bucket ChannelManager.new "aaaaaaaaaa;max-subs=0" true
      "cid").2.get_channel "aaaaaaaaaa;max-subs=0" = some Channel.new :=
  ⟨by decide, by decide, by decide,
   (C9_rejected_subscribe_creates_topic ChannelManager.new
     "aaaaaaaaaa;max-subs=0" "cid" (by decide) (by decide) (by decide)).2⟩

/-- C10: a GET whose bucket identifier is shorter than 10 bytes is
answered `notFound` with the registry returned untouched (so no topic is
created), for any Accept header; the POST ingestion path has no length
check — any name whose body has a non-empty line ends up in the registry. -/
theorem C10_short_id_404_get_only :
    (∀ (m : ChannelManager) (bucket_id : String) (accept : Bool)
        (client_id : String),
      str_len bucket_id < MIN_BUCKET_ID_LENGTH →
      get_bucket m bucket_id accept client_id =
        (GetBucketResult.notFound, m)) ∧
    (∀ (parse_line : String → ParsedEvent) (m : ChannelManager)
        (bucket_id body : String),
      (splitChar '\n' body.data).filter (fun l => !l.isEmpty) ≠ [] →
      ((post_events parse_line m bucket_id body).2.get_channel
        bucket_id).isSome = true) := by
  refine ⟨?_, ?_⟩
  · intro m bucket_id accept client_id h
    simp [get_bucket, h]
  · intro parse_line m bucket_id body hl
    have hb : ¬ body = "" := by
      intro h
      exact hl (by rw [h]; decide)
    simp only [post_events, if_neg hb, if_neg hl]
    rw [set_channel_get (m.get_or_create_channel bucket_id).2 bucket_id _
      (by rw [get_or_create_channel_get m bucket_id]; rfl)]
    rfl

theorem C10_short_id_404_get_only_witness :
    str_len "short" < MIN_BUCKET_ID_LENGTH ∧
    get_bucket one_channel_manager "short" true "cid" =
      (GetBucketResult.notFound, one_channel_manager) ∧
    (splitChar '\n' ("hello").data).filter (fun l => !l.isEmpty) ≠ [] ∧
    ((post_events plain_parse_line ChannelManager.new "x"
      "hello").2.get_channel "x").isSome = true :=
  ⟨by decide,
   C10_short_id_404_get_only.1 one_channel_manager "short" true "cid"
     (by decide),
   by decide,
   C10_short_id_404_get_only.2 plain_parse_line ChannelManager.new "x"
     "hello" (by decide)⟩
